import Mathlib

/-!
Verification of the stroke-curve core of the SignatureTestApp repository.

The algorithmic core of the repository is the conversion of buffered touch
points into a smoothed SVG path made of one move command followed by
quadratic Bezier commands.  Two components carry this logic:

* `PanResponderSignature` (source: `pointsToSVGPath`, `addPoint`,
  `startStroke`, `continueStroke`, `endStroke`, `clearSignature`,
  `getSignatureData`): rebuilds the in-progress path from scratch on every
  new point and accumulates completed path strings.
* `CustomSignature` (source: `addPoint`, `finalizePath`): maintains the
  in-progress path incrementally, appending one segment per new point.

Coordinates are JavaScript numbers used only through `+` and `/ 2`; they are
modelled as rationals.  A path string built by concatenating per-command
segments is modelled as the list of its commands (`PathCmd`), together with
a rendering function `renderPath` to the SVG string; `renderPath` maps `[]`
and only `[]` to the empty string, so the source's truthiness tests on path
strings correspond exactly to emptiness tests on command lists.
-/

namespace SignatureApp

/-- A 2D touch point, as in the `Point` / `TouchPoint` interfaces. -/
structure Point where
  x : ℚ
  y : ℚ
deriving DecidableEq

/-- The control/mid point computed in the source:
`controlX = (prev.x + cur.x) / 2`, `controlY = (prev.y + cur.y) / 2`. -/
def midPoint (p q : Point) : Point :=
  ⟨(p.x + q.x) / 2, (p.y + q.y) / 2⟩

/-- One SVG path command as emitted by the source: either `M x,y` or
`Q ax,ay dx,dy` (anchor = prior raw point, dest = midpoint). -/
inductive PathCmd where
  | moveTo (p : Point)
  | quadTo (anchor dest : Point)
deriving DecidableEq

/-- Renders one point as the source's `${x},${y}` fragment. -/
def renderPoint (p : Point) : String :=
  toString p.x ++ "," ++ toString p.y

/-- Renders one command as the source's `M${x},${y}` or
`Q${px},${py} ${cx},${cy}` fragment. -/
def renderCmd : PathCmd → String
  | .moveTo p => "M" ++ renderPoint p
  | .quadTo a d => "Q" ++ renderPoint a ++ " " ++ renderPoint d

/-- Renders a command list as the concatenation the source builds by
string appends. -/
def renderPath : List PathCmd → String
  | [] => ""
  | c :: cs => renderCmd c ++ renderPath cs

/-- The `for (let i = 1; i < points.length; i++)` loop body of
`pointsToSVGPath`: one `Q` command per consecutive pair, anchored at the
previous raw point with the midpoint as destination. -/
def quadCmds (prev : Point) : List Point → List PathCmd
  | [] => []
  | q :: rest => PathCmd.quadTo prev (midPoint prev q) :: quadCmds q rest

/-- `pointsToSVGPath` (PanResponderSignature): empty list for no points,
`M` only for one point, `M` followed by the loop's `Q` commands otherwise. -/
def pointsToSVGPath : List Point → List PathCmd
  | [] => []
  | p :: rest => PathCmd.moveTo p :: quadCmds p rest

/-- True exactly on move commands. -/
def isMoveCmd : PathCmd → Bool
  | .moveTo _ => true
  | .quadTo _ _ => false

/-- True exactly on quadratic curve commands. -/
def isQuadCmd : PathCmd → Bool
  | .moveTo _ => false
  | .quadTo _ _ => true

/-! ### PanResponderSignature state machine (source part_003) -/

/-- The mutable state of `PanResponderSignature`: `completedPaths`,
`currentPath`, the `currentPoints` ref, and the `isDrawing` flag. -/
structure PanSigState where
  completedPaths : List (List PathCmd)
  currentPath : List PathCmd
  currentPoints : List Point
  isDrawing : Bool
deriving DecidableEq

/-- The state at mount: no paths, no points, not drawing. -/
def initState : PanSigState :=
  ⟨[], [], [], false⟩

/-- `addPoint` (PanResponderSignature): push the point and rebuild the whole
in-progress path with `pointsToSVGPath`. -/
def addPoint (x y : ℚ) (s : PanSigState) : PanSigState :=
  let pts := s.currentPoints ++ [⟨x, y⟩]
  { s with currentPoints := pts, currentPath := pointsToSVGPath pts }

/-- `startStroke`: set `isDrawing`, clear the point buffer, then `addPoint`. -/
def startStroke (x y : ℚ) (s : PanSigState) : PanSigState :=
  addPoint x y { s with isDrawing := true, currentPoints := [] }

/-- `continueStroke`: guard `if (!isDrawing) return;` then `addPoint`. -/
def continueStroke (x y : ℚ) (s : PanSigState) : PanSigState :=
  if s.isDrawing then addPoint x y s else s

/-- `endStroke`: guard `if (!isDrawing || currentPath === '') return;`;
otherwise append the current path to the completed list, invoke the
`onSignatureChange` callback with `[...completedPaths, currentPath].join(' ')`,
and reset the current path and point buffer.  The optional second component
is the callback payload, `none` when no callback fires. -/
def endStroke (s : PanSigState) : PanSigState × Option String :=
  if !s.isDrawing || s.currentPath.isEmpty then (s, none)
  else
    let allPaths := s.completedPaths ++ [s.currentPath]
    ({ completedPaths := allPaths, currentPath := [], currentPoints := [],
       isDrawing := false },
     some (String.intercalate " " (allPaths.map renderPath)))

/-- `clearSignature`: clear everything. -/
def clearState : PanSigState :=
  ⟨[], [], [], false⟩

/-- `getSignatureData`: `currentPath ? [...completedPaths, currentPath]
: completedPaths`, joined by a single space. -/
def getSignatureData (s : PanSigState) : String :=
  let allPaths :=
    if s.currentPath.isEmpty then s.completedPaths
    else s.completedPaths ++ [s.currentPath]
  String.intercalate " " (allPaths.map renderPath)

/-- The touch events dispatched by the host's `PanResponder`, plus the
explicit clear action. -/
inductive Event where
  | grant (x y : ℚ)
  | move (x y : ℚ)
  | release
  | terminate
  | clear
deriving DecidableEq

/-- One event dispatch: `onPanResponderGrant` calls `startStroke`,
`onPanResponderMove` calls `continueStroke`, `onPanResponderRelease` and
`onPanResponderTerminate` both call `endStroke`, `clear` calls
`clearSignature`.  The second component is the callback payload. -/
def step : Event → PanSigState → PanSigState × Option String
  | .grant x y, s => (startStroke x y s, none)
  | .move x y, s => (continueStroke x y s, none)
  | .release, s => endStroke s
  | .terminate, s => endStroke s
  | .clear, _ => (clearState, none)

/-- Processing a serialized stream of events, one at a time. -/
def runEvents (es : List Event) (s : PanSigState) : PanSigState :=
  es.foldl (fun t e => (step e t).1) s

/-- The event stream that feeds one stroke's points through
start + update calls. -/
def strokeEvents : List Point → List Event
  | [] => []
  | p :: ps => Event.grant p.x p.y :: ps.map fun q => Event.move q.x q.y

/-- The state after feeding one stroke's points from the mount state. -/
def feedStroke (points : List Point) : PanSigState :=
  runEvents (strokeEvents points) initState

/-! ### CustomSignature state machine (source part_004) -/

/-- The mutable state of `CustomSignature`: the in-progress `pathData`,
the completed `paths`, and the `currentPath` point ref. -/
structure CustomSigState where
  pathData : List PathCmd
  paths : List (List PathCmd)
  currentPath : List Point
deriving DecidableEq

/-- The `CustomSignature` state at mount. -/
def initCustom : CustomSigState :=
  ⟨[], [], []⟩

namespace CustomSig

/-- `CustomSignature.addPoint`: push the point; a first point replaces
`pathData` with an `M` command, later points append one `Q` segment built
from `currentPath[length-2]` and `currentPath[length-1]`. -/
def addPoint (x y : ℚ) (s : CustomSigState) : CustomSigState :=
  let pts := s.currentPath ++ [⟨x, y⟩]
  if pts.length = 1 then
    { s with currentPath := pts, pathData := [PathCmd.moveTo ⟨x, y⟩] }
  else if 2 ≤ pts.length then
    match pts[pts.length - 2]?, pts[pts.length - 1]? with
    | some prev, some cur =>
        { s with currentPath := pts,
                 pathData := s.pathData ++ [PathCmd.quadTo prev (midPoint prev cur)] }
    | _, _ => { s with currentPath := pts }
  else { s with currentPath := pts }

/-- `CustomSignature.finalizePath`: guard `if (pathData)`; otherwise append
the current path to `paths`, invoke the callback with
`[...paths, pathData].join(' ')`, and reset the stroke. -/
def finalizePath (s : CustomSigState) : CustomSigState × Option String :=
  if s.pathData.isEmpty then (s, none)
  else
    ({ pathData := [], paths := s.paths ++ [s.pathData], currentPath := [] },
     some (String.intercalate " " ((s.paths ++ [s.pathData]).map renderPath)))

/-- Feeding a list of points to `addPoint`, in order. -/
def runAdds (inputs : List Point) (s : CustomSigState) : CustomSigState :=
  inputs.foldl (fun t p => addPoint p.x p.y t) s

end CustomSig

/-! ### Spec-side path description, for comparison with the source -/

/-- The path form the spec describes for a point list: a move to the first
point, then, for every subsequent point, one quadratic command anchored at
the previous point with the pair's midpoint as destination. -/
def specQuadForm : List Point → List PathCmd
  | [] => []
  | p :: rest =>
      PathCmd.moveTo p
        :: List.zipWith (fun a b => PathCmd.quadTo a (midPoint a b)) (p :: rest) rest

/-! ### Helper lemmas -/

/-- The last point of a nonempty buffer `p :: ps`, by recursion. -/
def lastP (p : Point) : List Point → Point
  | [] => p
  | q :: rest => lastP q rest

lemma lastP_getLast? (p : Point) (ps : List Point) :
    (p :: ps).getLast? = some (lastP p ps) := by
  induction ps generalizing p with
  | nil => rfl
  | cons a rest ih => rw [List.getLast?_cons_cons]; exact ih a

lemma quadCmds_concat (ps : List Point) (prev q : Point) :
    quadCmds prev (ps ++ [q])
      = quadCmds prev ps
          ++ [PathCmd.quadTo (lastP prev ps) (midPoint (lastP prev ps) q)] := by
  induction ps generalizing prev with
  | nil => rfl
  | cons a rest ih => simp [quadCmds, lastP, ih]

lemma pointsToSVGPath_concat (p : Point) (ps : List Point) (q : Point) :
    pointsToSVGPath ((p :: ps) ++ [q])
      = pointsToSVGPath (p :: ps)
          ++ [PathCmd.quadTo (lastP p ps) (midPoint (lastP p ps) q)] := by
  simp [pointsToSVGPath, quadCmds_concat]

lemma quadCmds_countP_move (prev : Point) (ps : List Point) :
    (quadCmds prev ps).countP isMoveCmd = 0 := by
  induction ps generalizing prev with
  | nil => rfl
  | cons a rest ih => simp [quadCmds, List.countP_cons, isMoveCmd, ih]

lemma quadCmds_countP_quad (prev : Point) (ps : List Point) :
    (quadCmds prev ps).countP isQuadCmd = ps.length := by
  induction ps generalizing prev with
  | nil => rfl
  | cons a rest ih => simp [quadCmds, List.countP_cons, isQuadCmd, ih]

lemma quadCmds_eq_zipWith (prev : Point) (ps : List Point) :
    quadCmds prev ps
      = List.zipWith (fun a b => PathCmd.quadTo a (midPoint a b)) (prev :: ps) ps := by
  induction ps generalizing prev with
  | nil => rfl
  | cons a rest ih => simp [quadCmds, ih]

lemma runEvents_nil (s : PanSigState) : runEvents [] s = s := rfl

lemma runEvents_cons (e : Event) (es : List Event) (s : PanSigState) :
    runEvents (e :: es) s = runEvents es (step e s).1 := rfl

/-- Feeding a list of move events to an actively drawing state whose current
path is the rebuild of its point buffer appends the points and keeps the
current path equal to the rebuild. -/
lemma runEvents_moves (ps : List Point) (s : PanSigState)
    (hd : s.isDrawing = true) (hc : s.currentPath = pointsToSVGPath s.currentPoints) :
    runEvents (ps.map fun q => Event.move q.x q.y) s
      = { s with currentPoints := s.currentPoints ++ ps,
                 currentPath := pointsToSVGPath (s.currentPoints ++ ps) } := by
  induction ps generalizing s with
  | nil =>
      cases s
      simp_all [runEvents]
  | cons q rest ih =>
      have hq : (⟨q.x, q.y⟩ : Point) = q := rfl
      have hstep : (step (Event.move q.x q.y) s).1
          = { s with currentPoints := s.currentPoints ++ [q],
                     currentPath := pointsToSVGPath (s.currentPoints ++ [q]) } := by
        simp [step, continueStroke, hd, addPoint, hq]
      rw [List.map_cons, runEvents_cons, hstep,
        ih { s with currentPoints := s.currentPoints ++ [q],
                    currentPath := pointsToSVGPath (s.currentPoints ++ [q]) } hd rfl]
      simp

lemma step_completed_extends (e : Event) (s : PanSigState) (he : e ≠ Event.clear) :
    ∃ t, (step e s).1.completedPaths = s.completedPaths ++ t := by
  cases e with
  | grant x y => exact ⟨[], by simp [step, startStroke, addPoint]⟩
  | move x y =>
      refine ⟨[], ?_⟩
      by_cases h : s.isDrawing <;> simp [step, continueStroke, h, addPoint]
  | release =>
      by_cases h : (!s.isDrawing || s.currentPath.isEmpty) = true
      · exact ⟨[], by simp [step, endStroke, h]⟩
      · exact ⟨[s.currentPath], by simp [step, endStroke, h]⟩
  | terminate =>
      by_cases h : (!s.isDrawing || s.currentPath.isEmpty) = true
      · exact ⟨[], by simp [step, endStroke, h]⟩
      · exact ⟨[s.currentPath], by simp [step, endStroke, h]⟩
  | clear => exact absurd rfl he

lemma runEvents_completed_extends (es : List Event) (s : PanSigState)
    (he : Event.clear ∉ es) :
    ∃ t, (runEvents es s).completedPaths = s.completedPaths ++ t := by
  induction es generalizing s with
  | nil => exact ⟨[], by simp [runEvents]⟩
  | cons e rest ih =>
      obtain ⟨t1, h1⟩ := step_completed_extends e s
        (fun h => he (h ▸ List.mem_cons_self e rest))
      obtain ⟨t2, h2⟩ := ih (step e s).1 (fun h => he (List.mem_cons_of_mem e h))
      exact ⟨t1 ++ t2, by rw [runEvents_cons, h2, h1, List.append_assoc]⟩

/-- When the guard of `endStroke` passes, the stroke is finalized and the
callback fires with the joined path list. -/
lemma endStroke_fires (s : PanSigState)
    (hd : s.isDrawing = true) (hc : s.currentPath ≠ []) :
    step Event.release s
      = ({ completedPaths := s.completedPaths ++ [s.currentPath], currentPath := [],
           currentPoints := [], isDrawing := false },
         some (String.intercalate " "
           ((s.completedPaths ++ [s.currentPath]).map renderPath))) := by
  have hie : s.currentPath.isEmpty = false := by
    cases hcv : s.currentPath with
    | nil => exact absurd hcv hc
    | cons a l => rfl
  simp [step, endStroke, hd, hie]

/-- `CustomSignature.addPoint` preserves the invariant that the incremental
`pathData` equals the from-scratch rebuild of the point buffer. -/
lemma addPoint_custom_spec (x y : ℚ) (s : CustomSigState)
    (h : s.pathData = pointsToSVGPath s.currentPath) :
    CustomSig.addPoint x y s
      = { pathData := pointsToSVGPath (s.currentPath ++ [⟨x, y⟩]),
          paths := s.paths, currentPath := s.currentPath ++ [⟨x, y⟩] } := by
  cases s with
  | mk pd pa cur =>
    simp only at h
    cases hc : cur with
    | nil =>
        subst hc
        simp [CustomSig.addPoint, pointsToSVGPath, quadCmds]
    | cons p ps =>
        have hpen : ((p :: ps) ++ [(⟨x, y⟩ : Point)])[ps.length]? = some (lastP p ps) := by
          rw [List.getElem?_append_left (by simp)]
          have hg := List.getLast?_eq_getElem? (p :: ps)
          rw [lastP_getLast? p ps] at hg
          simp only [List.length_cons, Nat.add_sub_cancel] at hg
          exact hg.symm
        subst hc
        simp only [CustomSig.addPoint, List.length_append, List.length_cons,
          List.length_nil]
        rw [if_neg (by omega), if_pos (by omega)]
        have hidx2 : ps.length + 1 + 0 + 1 - 2 = ps.length := by omega
        have hidx1 : ps.length + 1 + 0 + 1 - 1 = ps.length + 1 := by omega
        rw [hidx2, hidx1]
        have hlast' : ((p :: ps) ++ [(⟨x, y⟩ : Point)])[ps.length + 1]? = some ⟨x, y⟩ := by
          simp
        rw [hpen, hlast']
        simp [h]
        rw [← List.cons_append, pointsToSVGPath_concat]

/-- Folding `CustomSignature.addPoint` over inputs from an invariant state:
the buffer collects the inputs and `pathData` stays the rebuild. -/
lemma runAdds_spec (inputs : List Point) (s : CustomSigState)
    (h : s.pathData = pointsToSVGPath s.currentPath) :
    CustomSig.runAdds inputs s
      = { pathData := pointsToSVGPath (s.currentPath ++ inputs),
          paths := s.paths, currentPath := s.currentPath ++ inputs } := by
  induction inputs generalizing s with
  | nil => cases s; simp_all [CustomSig.runAdds]
  | cons p rest ih =>
      have hp : (⟨p.x, p.y⟩ : Point) = p := rfl
      have hstep : CustomSig.runAdds (p :: rest) s
          = CustomSig.runAdds rest (CustomSig.addPoint p.x p.y s) := rfl
      rw [hstep, addPoint_custom_spec p.x p.y s h, hp, ih _ rfl]
      simp

/-! ### Claim theorems -/

/-- Claim C1: for N ≥ 2 buffered points the generated path is one move-to
to the first point followed by one quadratic command per subsequent point,
anchored at the previous raw point with the pair's midpoint as destination;
in particular the stroke begin(0,0), append(10,0), append(10,10), end()
finalizes exactly MoveTo(0,0), QuadTo(anchor=(0,0), dest=(5,0)),
QuadTo(anchor=(10,0), dest=(10,5)). -/
theorem quad_path_shape :
    (∀ points : List Point, 2 ≤ points.length →
        pointsToSVGPath points = specQuadForm points)
    ∧ (runEvents [Event.grant 0 0, Event.move 10 0, Event.move 10 10,
          Event.release] initState).completedPaths
        = [[PathCmd.moveTo ⟨0, 0⟩, PathCmd.quadTo ⟨0, 0⟩ ⟨5, 0⟩,
            PathCmd.quadTo ⟨10, 0⟩ ⟨10, 5⟩]] := by
  constructor
  · intro points _
    cases points with
    | nil => rfl
    | cons p rest => simp [pointsToSVGPath, specQuadForm, quadCmds_eq_zipWith]
  · norm_num [runEvents, step, startStroke, continueStroke, addPoint, endStroke,
      initState, pointsToSVGPath, quadCmds, midPoint]
    simp

/-- Witness for C1: the generic part applied at the concrete three-point
stroke. -/
theorem quad_path_shape_witness :
    2 ≤ ([⟨0, 0⟩, ⟨10, 0⟩, ⟨10, 10⟩] : List Point).length
    ∧ pointsToSVGPath [⟨0, 0⟩, ⟨10, 0⟩, ⟨10, 10⟩]
        = specQuadForm [⟨0, 0⟩, ⟨10, 0⟩, ⟨10, 10⟩] :=
  ⟨by norm_num, quad_path_shape.1 [⟨0, 0⟩, ⟨10, 0⟩, ⟨10, 10⟩] (by norm_num)⟩

/-- Claim C2: for every point sequence fed via start+update calls (duplicate
points included) the in-progress path equals the rebuild of the buffered
points; it is empty for zero points, and otherwise starts with exactly one
move command to the first point and contains exactly N − 1 curve commands
(degenerate segments are emitted, not filtered). -/
theorem path_command_counts (points : List Point) :
    (feedStroke points).currentPath = pointsToSVGPath points
    ∧ (pointsToSVGPath points).countP isMoveCmd = (if points = [] then 0 else 1)
    ∧ (pointsToSVGPath points).countP isQuadCmd = points.length - 1
    ∧ (pointsToSVGPath points).head? = points.head?.map PathCmd.moveTo := by
  refine ⟨?_, ?_, ?_, ?_⟩
  · cases points with
    | nil => rfl
    | cons p ps =>
        have h0 : (step (Event.grant p.x p.y) initState).1
            = { completedPaths := [], currentPath := pointsToSVGPath [p],
                currentPoints := [p], isDrawing := true } := rfl
        unfold feedStroke strokeEvents
        rw [runEvents_cons, h0, runEvents_moves ps _ rfl rfl]
        simp
  · cases points with
    | nil => rfl
    | cons p ps =>
        simp [pointsToSVGPath, List.countP_cons, isMoveCmd, quadCmds_countP_move]
  · cases points with
    | nil => rfl
    | cons p ps =>
        simp [pointsToSVGPath, List.countP_cons, isQuadCmd, quadCmds_countP_quad]
  · cases points with
    | nil => rfl
    | cons p ps => rfl

/-- Claim C3: after any sequence of appends, the incrementally patched
`pathData` of `CustomSignature.addPoint` coincides exactly with the
from-scratch rebuild `pointsToSVGPath` of all points buffered so far. -/
theorem incremental_matches_rebuild (inputs : List Point) :
    (CustomSig.runAdds inputs initCustom).pathData
        = pointsToSVGPath (CustomSig.runAdds inputs initCustom).currentPath
    ∧ (CustomSig.runAdds inputs initCustom).currentPath = inputs := by
  rw [runAdds_spec inputs initCustom rfl]
  exact ⟨by simp [initCustom], by simp [initCustom]⟩

/-- Claim C4 counterexample: a point update on an active stroke mutates the
stroke state but invokes no callback, so the callback is not invoked after
every mutating operation. -/
theorem update_without_callback :
    (step (Event.move 1 1) (runEvents [Event.grant 0 0] initState)).1
        ≠ runEvents [Event.grant 0 0] initState
    ∧ (step (Event.move 1 1) (runEvents [Event.grant 0 0] initState)).2 = none := by
  constructor
  · norm_num [runEvents, step, startStroke, continueStroke, addPoint, initState,
      pointsToSVGPath, quadCmds, midPoint, PanSigState.mk.injEq]
  · rfl

/-- Claim C4 (amended): the callback fires synchronously exactly at stroke
finalization (release or terminate of an active stroke with a nonempty
path), carrying the combined drawing; point updates and stroke starts
mutate state without any callback. -/
theorem callback_only_on_finalization (s : PanSigState) (x y : ℚ)
    (hd : s.isDrawing = true) (hc : s.currentPath ≠ []) :
    (step (Event.move x y) s).2 = none
    ∧ (step (Event.grant x y) s).2 = none
    ∧ (step Event.release s).2
        = some (String.intercalate " "
            ((s.completedPaths ++ [s.currentPath]).map renderPath))
    ∧ (step Event.terminate s).2
        = some (String.intercalate " "
            ((s.completedPaths ++ [s.currentPath]).map renderPath)) := by
  refine ⟨rfl, rfl, ?_, ?_⟩
  · rw [endStroke_fires s hd hc]
  · rw [show step Event.terminate s = step Event.release s from rfl,
      endStroke_fires s hd hc]

/-- Witness for the amended C4 at a concrete one-point active stroke. -/
theorem callback_only_on_finalization_witness :
    (runEvents [Event.grant 0 0] initState).isDrawing = true
    ∧ (runEvents [Event.grant 0 0] initState).currentPath ≠ []
    ∧ ((step (Event.move 1 1) (runEvents [Event.grant 0 0] initState)).2 = none
        ∧ (step (Event.grant 1 1) (runEvents [Event.grant 0 0] initState)).2 = none
        ∧ (step Event.release (runEvents [Event.grant 0 0] initState)).2
            = some (String.intercalate " "
                (((runEvents [Event.grant 0 0] initState).completedPaths
                    ++ [(runEvents [Event.grant 0 0] initState).currentPath]).map renderPath))
        ∧ (step Event.terminate (runEvents [Event.grant 0 0] initState)).2
            = some (String.intercalate " "
                (((runEvents [Event.grant 0 0] initState).completedPaths
                    ++ [(runEvents [Event.grant 0 0] initState).currentPath]).map renderPath))) :=
  ⟨rfl, by decide,
    callback_only_on_finalization (runEvents [Event.grant 0 0] initState) 1 1 rfl (by decide)⟩

/-- Claim C5: over any event sequence without an explicit clear, the list of
finalized paths only grows by appending at the tail; concretely, completing
stroke A = (0,0),(1,1) and then stroke B = (2,2),(3,3) yields A's path
before B's with no interleaving. -/
theorem completed_paths_append_only :
    (∀ (es : List Event) (s : PanSigState), Event.clear ∉ es →
        ∃ t, (runEvents es s).completedPaths = s.completedPaths ++ t)
    ∧ (runEvents [Event.grant 0 0, Event.move 1 1, Event.release,
          Event.grant 2 2, Event.move 3 3, Event.release] initState).completedPaths
        = [pointsToSVGPath [⟨0, 0⟩, ⟨1, 1⟩], pointsToSVGPath [⟨2, 2⟩, ⟨3, 3⟩]] := by
  constructor
  · exact runEvents_completed_extends
  · norm_num [runEvents, step, startStroke, continueStroke, addPoint, endStroke,
      initState, pointsToSVGPath, quadCmds, midPoint]
    simp

/-- Witness for C5: the append-only part applied at a concrete event list
with no clear event. -/
theorem completed_paths_append_only_witness :
    Event.clear ∉ [Event.grant 0 0, Event.move 1 1, Event.release]
    ∧ ∃ t, (runEvents [Event.grant 0 0, Event.move 1 1, Event.release]
          initState).completedPaths = initState.completedPaths ++ t :=
  ⟨by decide,
    completed_paths_append_only.1 [Event.grant 0 0, Event.move 1 1, Event.release]
      initState (by decide)⟩

/-- Claim C6: the terminate (cancel) handler is the release (end) handler,
so cancelling any stroke produces exactly the same finalized path and
drawing state as ending it; checked concretely on the stroke
(0,0),(5,5),(10,0). -/
theorem cancel_equals_end :
    (∀ s : PanSigState, step Event.terminate s = step Event.release s)
    ∧ runEvents [Event.grant 0 0, Event.move 5 5, Event.move 10 0,
          Event.terminate] initState
        = runEvents [Event.grant 0 0, Event.move 5 5, Event.move 10 0,
            Event.release] initState
    ∧ (runEvents [Event.grant 0 0, Event.move 5 5, Event.move 10 0,
          Event.terminate] initState).completedPaths
        = [pointsToSVGPath [⟨0, 0⟩, ⟨5, 5⟩, ⟨10, 0⟩]] := by
  refine ⟨fun s => rfl, rfl, ?_⟩
  norm_num [runEvents, step, startStroke, continueStroke, addPoint, endStroke,
    initState]
  simp [pointsToSVGPath]

/-- Claim C7: clearing from any state empties the finalized list, the
in-progress path and the point buffer, and serializes to the empty string. -/
theorem reset_clears_all (s : PanSigState) :
    (step Event.clear s).1.completedPaths = []
    ∧ (step Event.clear s).1.currentPath = []
    ∧ (step Event.clear s).1.currentPoints = []
    ∧ getSignatureData (step Event.clear s).1 = "" :=
  ⟨rfl, rfl, rfl, rfl⟩

/-- Claim C8 counterexample: a grant while a stroke is active (buffer
(0,0),(1,1)) silently replaces the buffer with the new single point and
produces no error or callback output, so the buffered stroke state is
overwritten without being surfaced. -/
theorem grant_overwrites_buffer :
    (runEvents [Event.grant 0 0, Event.move 1 1] initState).isDrawing = true
    ∧ (runEvents [Event.grant 0 0, Event.move 1 1] initState).currentPoints
        = [⟨0, 0⟩, ⟨1, 1⟩]
    ∧ (step (Event.grant 2 2)
          (runEvents [Event.grant 0 0, Event.move 1 1] initState)).1.currentPoints
        = [⟨2, 2⟩]
    ∧ (step (Event.grant 2 2)
          (runEvents [Event.grant 0 0, Event.move 1 1] initState)).2 = none :=
  ⟨rfl, rfl, rfl, rfl⟩

/-- Claim C8 (amended): a start event while a stroke is active silently
discards the buffered points and in-progress path and begins a new
single-point stroke; no error, warning or callback is produced and the
completed-path list is untouched. -/
theorem grant_while_active_silent (s : PanSigState) (x y : ℚ)
    (hd : s.isDrawing = true) :
    (step (Event.grant x y) s).1.currentPoints = [⟨x, y⟩]
    ∧ (step (Event.grant x y) s).1.currentPath = pointsToSVGPath [⟨x, y⟩]
    ∧ (step (Event.grant x y) s).1.completedPaths = s.completedPaths
    ∧ (step (Event.grant x y) s).2 = none :=
  ⟨rfl, rfl, rfl, rfl⟩

/-- Witness for the amended C8 at a concrete active state. -/
theorem grant_while_active_silent_witness :
    (runEvents [Event.grant 0 0] initState).isDrawing = true
    ∧ ((step (Event.grant 2 2) (runEvents [Event.grant 0 0] initState)).1.currentPoints
          = [⟨2, 2⟩]
        ∧ (step (Event.grant 2 2) (runEvents [Event.grant 0 0] initState)).1.currentPath
            = pointsToSVGPath [⟨2, 2⟩]
        ∧ (step (Event.grant 2 2) (runEvents [Event.grant 0 0] initState)).1.completedPaths
            = (runEvents [Event.grant 0 0] initState).completedPaths
        ∧ (step (Event.grant 2 2) (runEvents [Event.grant 0 0] initState)).2 = none) :=
  ⟨rfl, grant_while_active_silent (runEvents [Event.grant 0 0] initState) 2 2 rfl⟩

/-- Claim C9: with no active stroke, a move event and a release event are
benign no-ops: the whole state is unchanged and no callback fires. -/
theorem spurious_events_noop (s : PanSigState) (x y : ℚ)
    (h : s.isDrawing = false) :
    step (Event.move x y) s = (s, none) ∧ step Event.release s = (s, none) := by
  constructor
  · simp [step, continueStroke, h]
  · simp [step, endStroke, h]

/-- Witness for C9 at the mount state. -/
theorem spurious_events_noop_witness :
    initState.isDrawing = false
    ∧ (step (Event.move 1 1) initState = (initState, none)
        ∧ step Event.release initState = (initState, none)) :=
  ⟨rfl, spurious_events_noop initState 1 1 rfl⟩

/-- Claim C10: whenever finalization fires the callback, the payload equals
the serialization of the post-finalization state (all completed paths,
including the just-finalized one, joined in stroke order by one space), so
the notified payload and a subsequent `getSignatureData` read agree. -/
theorem payload_matches_drawing (s : PanSigState)
    (hd : s.isDrawing = true) (hc : s.currentPath ≠ []) :
    (step Event.release s).2 = some (getSignatureData (step Event.release s).1)
    ∧ (step Event.release s).2
        = some (String.intercalate " "
            ((s.completedPaths ++ [s.currentPath]).map renderPath)) := by
  rw [endStroke_fires s hd hc]
  exact ⟨by simp [getSignatureData], rfl⟩

/-- Witness for C10 at a concrete one-point active stroke. -/
theorem payload_matches_drawing_witness :
    (runEvents [Event.grant 3 4] initState).isDrawing = true
    ∧ (runEvents [Event.grant 3 4] initState).currentPath ≠ []
    ∧ ((step Event.release (runEvents [Event.grant 3 4] initState)).2
          = some (getSignatureData
              (step Event.release (runEvents [Event.grant 3 4] initState)).1)
        ∧ (step Event.release (runEvents [Event.grant 3 4] initState)).2
            = some (String.intercalate " "
                (((runEvents [Event.grant 3 4] initState).completedPaths
                    ++ [(runEvents [Event.grant 3 4] initState).currentPath]).map
                  renderPath))) :=
  ⟨rfl, by decide,
    payload_matches_drawing (runEvents [Event.grant 3 4] initState) rfl (by decide)⟩

end SignatureApp
